import Mathlib

/-!
Verification development for the Miran Search product-catalog service:
a shallow embedding of the search-and-cache subsystem implemented in
`products/views.py` (query normalization, the two-mode query planner,
and the read-through cache layer with write-time invalidation), together
with theorems settling the specification's claims about it.

Machine text is modelled as Lean `String`/`List Char`; the store's
numeric similarity operator and the HTTP layer's numeric-string parser
are external collaborators and appear as function parameters; money-free
numeric values (similarity scores, calorie bounds) are rationals.
-/

namespace Miran

/-! ## Text normalizer (`normalize_arabic` in `products/views.py`)

`normalize_arabic` first applies `unicodedata.normalize('NFKD', text)`
and then the substitution table `{'أ': 'ا', 'إ': 'ا', 'آ': 'ا', 'ة': 'ه'}`
via successive single-character `str.replace` calls.

The NFKD step is embedded as a per-character canonical decomposition,
restricted to the code points the substitution table and the claims
involve; every other character is its own (already fully decomposed)
normal form.  Per the Unicode character database:
U+0623 (alef with hamza above) decomposes to U+0627 U+0654,
U+0625 (alef with hamza below) decomposes to U+0627 U+0655,
U+0622 (alef with madda above) decomposes to U+0627 U+0653,
and U+0629 (teh marbuta) has no decomposition.
-/

/-- Canonical (NFKD) decomposition of one character, restricted to the
alphabet relevant to `normalize_arabic`; all outputs are themselves
fully decomposed, which is what Unicode normal forms guarantee. -/
def nfkdChar (c : Char) : List Char :=
  if c = 'أ' then ['ا', 'ٔ']
  else if c = 'إ' then ['ا', 'ٕ']
  else if c = 'آ' then ['ا', 'ٓ']
  else [c]

/-- The substitution table of `normalize_arabic`: each `str.replace` call
has a single-character pattern, so the four successive calls act as one
character-wise map.  The keys are the precomposed code points exactly as
they appear in the source bytes of `products/views.py`. -/
def pyReplaceChar (c : Char) : Char :=
  if c = 'أ' ∨ c = 'إ' ∨ c = 'آ' then 'ا'
  else if c = 'ة' then 'ه'
  else c

/-- `normalize_arabic`: NFKD decomposition followed by the substitution
table, exactly in the order the source applies them. -/
def normalize_arabic (s : String) : String :=
  ⟨(s.data.flatMap nfkdChar).map pyReplaceChar⟩

/-- One normalization step on a single character: decompose, then
substitute each resulting character. -/
def normChar (c : Char) : List Char :=
  (nfkdChar c).map pyReplaceChar

/-! ## Data model (`products/models.py`)

A `Product` row joined with its `Category` (the view always uses
`select_related('category')`), keeping the columns the search-and-cache
subsystem reads.  `calories` is an `IntegerField`. -/

structure Product where
  id : Nat
  name : String
  brand : String
  description : String
  categoryName : String
  calories : Int
deriving DecidableEq

/-! ## Case-insensitive substring matching (`__icontains`) -/

/-- The characters of a string, lowercased (the collation-level case
folding behind `ILIKE`). -/
def lowerChars (s : String) : List Char :=
  s.data.map Char.toLower

/-- Django's `field__icontains=needle`: case-insensitive substring
containment. -/
def icontains (hay needle : String) : Bool :=
  decide (List.IsInfix (lowerChars needle) (lowerChars hay))

/-! ## Query planner (`ProductViewSet._search_queryset`) -/

/-- The `is_exact_name_match` annotation: `name__icontains=query` where
`query` is the normalized query. -/
def isExactNameMatch (q : String) (p : Product) : Bool :=
  icontains p.name q

/-- The long-mode `rank` annotation: the weighted sum of the store's
trigram-similarity scores of the four columns against the normalized
query, with weights 2.0, 1.0, 0.5, 0.8.  `sim col q` stands for the
store's `TrigramSimilarity(col, q)` operator, an external collaborator
passed as a parameter. -/
def rankOf (sim : String → String → ℚ) (q : String) (p : Product) : ℚ :=
  sim p.name q * 2 + sim p.brand q * 1 +
    sim p.description q * (1 / 2) + sim p.categoryName q * (4 / 5)

/-- The `category__name__icontains` filter: case-insensitive substring
match on the normalized category name, applied only when the category
parameter is truthy (present and non-empty). -/
def categoryFilter (category : Option String) (l : List Product) :
    List Product :=
  match category with
  | some c =>
      if c = "" then l
      else l.filter fun p => icontains p.categoryName (normalize_arabic c)
  | none => l

/-- The `calories__gte=float(calories_min)` filter: applied only when
the parameter is truthy and `parseNum` (Python's `float`) accepts it; a
failed parse drops the bound, as the `except ValueError` handler does. -/
def calMinFilter (parseNum : String → Option ℚ) (cmin : Option String)
    (l : List Product) : List Product :=
  match cmin with
  | some s =>
      if s = "" then l
      else match parseNum s with
        | some v => l.filter fun p => decide (v ≤ (p.calories : ℚ))
        | none => l
  | none => l

/-- The `calories__lte=float(calories_max)` filter, with the same
truthiness and parse-failure behaviour. -/
def calMaxFilter (parseNum : String → Option ℚ) (cmax : Option String)
    (l : List Product) : List Product :=
  match cmax with
  | some s =>
      if s = "" then l
      else match parseNum s with
        | some v => l.filter fun p => decide ((p.calories : ℚ) ≤ v)
        | none => l
  | none => l

/-- The candidate rows before mode-specific matching: the base queryset
restricted by the category filter and the two calorie bounds, in the
order `_search_queryset` applies them. -/
def candidateRows (parseNum : String → Option ℚ) (store : List Product)
    (category : Option String) (cmin cmax : Option String) : List Product :=
  calMaxFilter parseNum cmax
    (calMinFilter parseNum cmin (categoryFilter category store))

/-- Comparison of rows by a key into a linear order; used to embed the
SQL `ORDER BY` clauses. -/
def keyLe {α β : Type} [LinearOrder β] (key : α → β) (a b : α) : Prop :=
  key a ≤ key b

instance {α β : Type} [LinearOrder β] (key : α → β) : DecidableRel (keyLe key) :=
  fun a b => inferInstanceAs (Decidable (key a ≤ key b))

instance {α β : Type} [LinearOrder β] (key : α → β) : IsTotal α (keyLe key) :=
  ⟨fun a b => le_total (key a) (key b)⟩

instance {α β : Type} [LinearOrder β] (key : α → β) : IsTrans α (keyLe key) :=
  ⟨fun _ _ _ h h' => le_trans h h'⟩

/-- Short-mode sort key for `ORDER BY -is_exact_name_match, name`:
exact-name matches first (`!` because `false < true`), then name
ascending. -/
def shortKey (q : String) (p : Product) : Lex (Bool × String) :=
  toLex (!isExactNameMatch q p, p.name)

/-- Long-mode sort key for `ORDER BY -is_exact_name_match, -rank, name`:
exact-name matches first, then rank descending, then name ascending. -/
def longKey (sim : String → String → ℚ) (q : String) (p : Product) :
    Lex (Bool × Lex (ℚ × String)) :=
  toLex (!isExactNameMatch q p, toLex (-rankOf sim q p, p.name))

/-- `ProductViewSet._search_queryset`: normalize the query, build the
candidate rows, then branch on the normalized query's length: at most 2
characters selects substring mode (OR of `icontains` over the four
columns, ordered exact-name-match first then name), more than 2 selects
similarity mode (keep rows of rank strictly above 0.2, ordered
exact-name-match first, rank descending, name ascending). -/
def searchQueryset (parseNum : String → Option ℚ) (sim : String → String → ℚ)
    (store : List Product) (q0 : String) (category : Option String)
    (cmin cmax : Option String) : List Product :=
  if (normalize_arabic q0).length ≤ 2 then
    ((candidateRows parseNum store category cmin cmax).filter fun p =>
        icontains p.name (normalize_arabic q0) ||
          icontains p.brand (normalize_arabic q0) ||
          icontains p.description (normalize_arabic q0) ||
          icontains p.categoryName (normalize_arabic q0)).insertionSort
      (keyLe (shortKey (normalize_arabic q0)))
  else
    ((candidateRows parseNum store category cmin cmax).filter fun p =>
        decide ((1 / 5 : ℚ) < rankOf sim (normalize_arabic q0) p)).insertionSort
      (keyLe (longKey sim (normalize_arabic q0)))

/-! ## Search endpoint (`ProductViewSet.search`) -/

/-- Python's `str.strip()`: drop leading and trailing whitespace. -/
def pyStrip (s : String) : String :=
  ⟨((s.data.dropWhile Char.isWhitespace).reverse.dropWhile
      Char.isWhitespace).reverse⟩

/-- The body the endpoint returns: pagination metadata plus the result
rows (serialization of individual rows is outside the core). -/
structure SearchResponse where
  count : Nat
  next : Option String
  previous : Option String
  results : List Product
deriving DecidableEq

/-- `ProductViewSet.search`: read `q` (default `""`), strip it; an empty
stripped query short-circuits to the canonical empty body; otherwise
delegate to `_search_queryset`.  Pagination is the external API
boundary and is modelled as the identity page. -/
def searchEndpoint (parseNum : String → Option ℚ) (sim : String → String → ℚ)
    (store : List Product) (qP category cmin cmax : Option String) :
    SearchResponse :=
  if pyStrip (qP.getD "") = "" then ⟨0, none, none, []⟩
  else
    ⟨(searchQueryset parseNum sim store (pyStrip (qP.getD "")) category cmin
        cmax).length,
      none, none,
      searchQueryset parseNum sim store (pyStrip (qP.getD "")) category cmin cmax⟩

/-! ## Cache layer (`list`, `retrieve`, `perform_*`,
`invalidate_product_cache`, `invalidate_all_search_cache`)

The Redis backend is modelled as an association list of string keys to
cached values of an abstract payload type `V` (read responses), plus the
`search_keys` registry set tracked by `invalidate_all_search_cache`.
The value cached for a read is produced by an external serialization
collaborator passed as a parameter. -/

/-- The list-page cache key `f"products:all:page:{page_number}"`. -/
def listCacheKey (page : String) : String :=
  "products:all:page:" ++ page

/-- The detail cache key `f"products:{product_id}"`. -/
def detailCacheKey (pid : String) : String :=
  "products:" ++ pid

/-- The Redis set naming all live search-result cache keys. -/
def searchKeysRegistryKey : String :=
  "search_keys"

/-- Cache backend state: cached key/value pairs plus the members of the
`search_keys` registry set. -/
structure CacheState (V : Type) where
  kv : List (String × V)
  searchKeys : List String
deriving DecidableEq

/-- One string is a prefix of another (the matching rule of a trailing
glob `*` pattern). -/
def strHasPrefix (pre s : String) : Bool :=
  decide (List.IsPrefix pre.data s.data)

/-- `cache.get key`: the most recently stored value under `key`. -/
def cacheGet {V : Type} (c : CacheState V) (k : String) : Option V :=
  (c.kv.find? fun e => decide (e.1 = k)).map (·.2)

/-- `cache.set key value` (the TTL only bounds staleness and plays no
role in the claims). -/
def cacheSet {V : Type} (c : CacheState V) (k : String) (v : V) :
    CacheState V :=
  { c with kv := (k, v) :: c.kv }

/-- `cache.delete_pattern (pre ++ "*")`: remove every entry whose key
starts with `pre`. -/
def cacheDeletePattern {V : Type} (c : CacheState V) (pre : String) :
    CacheState V :=
  { c with kv := c.kv.filter fun e => !strHasPrefix pre e.1 }

/-- `cache.delete key`: remove the entry stored under `key`. -/
def cacheDeleteKey {V : Type} (c : CacheState V) (k : String) :
    CacheState V :=
  { c with kv := c.kv.filter fun e => !decide (e.1 = k) }

/-- `invalidate_all_search_cache`: read the members of `search_keys`;
when the set is non-empty, delete every member key and the registry set
itself (`redis.delete(*keys, "search_keys")`). -/
def invalidateAllSearchCache {V : Type} (c : CacheState V) : CacheState V :=
  if c.searchKeys.isEmpty then c
  else
    { kv := c.kv.filter fun e => !decide (e.1 ∈ c.searchKeys),
      searchKeys := [] }

/-- `invalidate_product_cache`: prefix-sweep the list pages, delete the
product's detail entry, then clear the search cache and its registry. -/
def invalidateProductCache {V : Type} (c : CacheState V) (pid : Nat) :
    CacheState V :=
  invalidateAllSearchCache
    (cacheDeleteKey (cacheDeletePattern c "products:all:")
      (detailCacheKey (toString pid)))

/-- `ProductViewSet.list`: return the cached page when present,
otherwise compute the page from the store, cache it under the list key,
and return it.  `computeL` stands for the excluded DRF list
serialization. -/
def listRead {V : Type} (computeL : List Product → String → V)
    (store : List Product) (page : String) (c : CacheState V) :
    V × CacheState V :=
  match cacheGet c (listCacheKey page) with
  | some v => (v, c)
  | none =>
      (computeL store page, cacheSet c (listCacheKey page) (computeL store page))

/-- `ProductViewSet.retrieve`: same read-through shape keyed by the
product identifier taken from the URL. -/
def detailRead {V : Type} (computeD : List Product → String → V)
    (store : List Product) (pid : String) (c : CacheState V) :
    V × CacheState V :=
  match cacheGet c (detailCacheKey pid) with
  | some v => (v, c)
  | none =>
      (computeD store pid, cacheSet c (detailCacheKey pid) (computeD store pid))

/-- Whole-system state: the catalog store plus the cache backend. -/
structure SysState (V : Type) where
  store : List Product
  cache : CacheState V

/-- `perform_create`: save the new row, then invalidate its caches
before the request completes. -/
def performCreate {V : Type} (s : SysState V) (p : Product) : SysState V :=
  { store := p :: s.store, cache := invalidateProductCache s.cache p.id }

/-- `perform_update`: save the changed row, then invalidate its caches
before the request completes. -/
def performUpdate {V : Type} (s : SysState V) (p : Product) : SysState V :=
  { store := s.store.map fun q => if q.id = p.id then p else q,
    cache := invalidateProductCache s.cache p.id }

/-- `perform_destroy`: delete the row, then invalidate its caches before
the request completes. -/
def performDestroy {V : Type} (s : SysState V) (pid : Nat) : SysState V :=
  { store := s.store.filter fun q => q.id != pid,
    cache := invalidateProductCache s.cache pid }

/-! ## Fallible cache operations

`products/views.py` wraps none of its cache calls in `try`/`except`; a
cache backend that is unreachable raises, and the exception propagates
out of the view.  The same operations are therefore also embedded over
a backend with an availability flag, returning `Except`: each primitive
fails when the backend is down, and the view code ignores no failure. -/

/-- Cache backend that may be unreachable. -/
structure RedisState (V : Type) where
  avail : Bool
  cache : CacheState V

/-- The error an unreachable backend raises. -/
def connError : String := "redis connection error"

/-- Replace the cache contents of a fallible backend state. -/
def withCache {V : Type} (r : RedisState V) (c : CacheState V) : RedisState V :=
  { r with cache := c }

/-- Fallible `cache.get`. -/
def cacheGetE {V : Type} (r : RedisState V) (k : String) :
    Except String (Option V) :=
  if r.avail then .ok (cacheGet r.cache k) else .error connError

/-- Fallible `cache.set`. -/
def cacheSetE {V : Type} (r : RedisState V) (k : String) (v : V) :
    Except String (RedisState V) :=
  if r.avail then .ok { r with cache := cacheSet r.cache k v }
  else .error connError

/-- Fallible `cache.delete_pattern`. -/
def cacheDeletePatternE {V : Type} (r : RedisState V) (pre : String) :
    Except String (RedisState V) :=
  if r.avail then .ok { r with cache := cacheDeletePattern r.cache pre }
  else .error connError

/-- Fallible `cache.delete`. -/
def cacheDeleteKeyE {V : Type} (r : RedisState V) (k : String) :
    Except String (RedisState V) :=
  if r.avail then .ok { r with cache := cacheDeleteKey r.cache k }
  else .error connError

/-- Fallible `redis.smembers("search_keys")`. -/
def smembersE {V : Type} (r : RedisState V) : Except String (List String) :=
  if r.avail then .ok r.cache.searchKeys else .error connError

/-- Fallible `redis.delete(*keys, "search_keys")`. -/
def deleteSearchKeysE {V : Type} (r : RedisState V) :
    Except String (RedisState V) :=
  if r.avail then
    .ok { r with cache := invalidateAllSearchCache r.cache }
  else .error connError

/-- `ProductViewSet.list` over the fallible backend: no exception
handler exists in the view, so any cache failure propagates. -/
def listReadE {V : Type} (computeL : List Product → String → V)
    (store : List Product) (page : String) (r : RedisState V) :
    Except String (V × RedisState V) := do
  let cached ← cacheGetE r (listCacheKey page)
  match cached with
  | some v => pure (v, r)
  | none => do
      let r2 ← cacheSetE r (listCacheKey page) (computeL store page)
      pure (computeL store page, r2)

/-- `invalidate_all_search_cache` over the fallible backend. -/
def invalidateAllSearchCacheE {V : Type} (r : RedisState V) :
    Except String (RedisState V) := do
  let keys ← smembersE r
  if keys.isEmpty then pure r else deleteSearchKeysE r

/-- `invalidate_product_cache` over the fallible backend. -/
def invalidateProductCacheE {V : Type} (r : RedisState V) (pid : Nat) :
    Except String (RedisState V) := do
  let r1 ← cacheDeletePatternE r "products:all:"
  let r2 ← cacheDeleteKeyE r1 (detailCacheKey (toString pid))
  invalidateAllSearchCacheE r2

/-- `perform_create` over the fallible backend: the row is saved, then
invalidation runs; an invalidation failure propagates and the request
fails after the save. -/
def performCreateE {V : Type} (store : List Product) (r : RedisState V)
    (p : Product) : Except String (List Product × RedisState V) := do
  let r2 ← invalidateProductCacheE r p.id
  pure (p :: store, r2)

/-! ## Theorems: text normalizer -/

/-- `normalize_arabic` as a single character-wise pass: decompose each
character, then substitute each character of the decomposition. -/
theorem normalize_arabic_flatMap (s : String) :
    normalize_arabic s = ⟨s.data.flatMap normChar⟩ := by
  simp only [normalize_arabic, List.map_flatMap]
  rfl

/-- Renormalizing one character's normal form changes nothing: every
character produced by `normChar` is its own normal form. -/
theorem normChar_flatMap (c : Char) :
    (normChar c).flatMap normChar = normChar c := by
  by_cases h1 : c = 'أ'
  · subst h1; decide
  by_cases h2 : c = 'إ'
  · subst h2; decide
  by_cases h3 : c = 'آ'
  · subst h3; decide
  by_cases h4 : c = 'ة'
  · subst h4; decide
  simp [normChar, nfkdChar, pyReplaceChar, h1, h2, h3, h4]

/-- Claim C6: the normalizer is idempotent — for every string `s`,
`normalize_arabic (normalize_arabic s) = normalize_arabic s`. -/
theorem normalize_arabic_idempotent (s : String) :
    normalize_arabic (normalize_arabic s) = normalize_arabic s := by
  rw [normalize_arabic_flatMap s, normalize_arabic_flatMap]
  show (⟨(s.data.flatMap normChar).flatMap normChar⟩ : String) = _
  rw [List.flatMap_assoc]
  simp only [normChar_flatMap]

/-- Claim C5 (refuted): after NFKD decomposition the precomposed key
U+0623 of the substitution table no longer occurs, so the hamza variant
is not folded and `normalize_arabic "أحمر" ≠ normalize_arabic "احمر"`
(a combining hamza U+0654 survives in the first); the ta-marbuta pair,
whose key U+0629 has no decomposition, does fold. -/
theorem normalize_arabic_fold_divergence :
    normalize_arabic "أحمر" ≠ normalize_arabic "احمر" ∧
      normalize_arabic "أحمر" = "ا\u0654حمر" ∧
      normalize_arabic "تفاحة" = normalize_arabic "تفاحه" := by
  refine ⟨by decide, by decide, by decide⟩

/-! ## Theorems: query planner -/

/-- Rows comparing at most under the short-mode sort key stand in the
claimed priority: exact-name match strictly first, otherwise equal
match status and name ascending. -/
theorem shortKeyLe_imp {q : String} {a b : Product}
    (h : keyLe (shortKey q) a b) :
    (isExactNameMatch q a = true ∧ isExactNameMatch q b = false) ∨
      (isExactNameMatch q a = isExactNameMatch q b ∧ a.name ≤ b.name) := by
  rw [keyLe, shortKey, shortKey, Prod.Lex.le_iff] at h
  rcases h with h | ⟨h1, h2⟩
  · rw [Bool.lt_iff] at h
    exact Or.inl ⟨by simpa using h.1, by simpa using h.2⟩
  · exact Or.inr ⟨by simpa using h1, h2⟩

/-- Rows comparing at most under the long-mode sort key stand in the
claimed priority: exact-name match strictly first, otherwise equal
match status and rank descending, otherwise equal rank and name
ascending. -/
theorem longKeyLe_imp {sim : String → String → ℚ} {q : String} {a b : Product}
    (h : keyLe (longKey sim q) a b) :
    (isExactNameMatch q a = true ∧ isExactNameMatch q b = false) ∨
      (isExactNameMatch q a = isExactNameMatch q b ∧
        (rankOf sim q b < rankOf sim q a ∨
          (rankOf sim q a = rankOf sim q b ∧ a.name ≤ b.name))) := by
  rw [keyLe, longKey, longKey, Prod.Lex.le_iff] at h
  rcases h with h | ⟨h1, h2⟩
  · rw [Bool.lt_iff] at h
    exact Or.inl ⟨by simpa using h.1, by simpa using h.2⟩
  · refine Or.inr ⟨by simpa using h1, ?_⟩
    rw [Prod.Lex.le_iff] at h2
    rcases h2 with h2 | ⟨h2, h3⟩
    · exact Or.inl (by simpa using h2)
    · exact Or.inr ⟨by simpa using neg_inj.mp h2, h3⟩

/-- Claim C1: in long mode (normalized query longer than 2 characters)
the planner's `rank` annotation is the weighted similarity sum with
weights 2.0 (name), 1.0 (brand), 0.5 (description), 0.8 (category
name), and the result set holds exactly the candidate rows — after
category and calorie filtering — whose rank strictly exceeds 0.2. -/
theorem search_long_mode_rank_filter (parseNum : String → Option ℚ)
    (sim : String → String → ℚ) (store : List Product) (q0 : String)
    (category cmin cmax : Option String)
    (hq : 2 < (normalize_arabic q0).length) :
    (∀ p : Product,
        rankOf sim (normalize_arabic q0) p =
          sim p.name (normalize_arabic q0) * 2 +
            sim p.brand (normalize_arabic q0) * 1 +
            sim p.description (normalize_arabic q0) * (1 / 2) +
            sim p.categoryName (normalize_arabic q0) * (4 / 5)) ∧
      ∀ p : Product,
        p ∈ searchQueryset parseNum sim store q0 category cmin cmax ↔
          p ∈ candidateRows parseNum store category cmin cmax ∧
            (1 / 5 : ℚ) < rankOf sim (normalize_arabic q0) p := by
  refine ⟨fun p => rfl, fun p => ?_⟩
  rw [searchQueryset, if_neg (not_le.mpr hq)]
  simp only [List.mem_insertionSort, List.mem_filter, decide_eq_true_eq]

/-- Claim C2: in short mode (normalized query of length at most 2) the
planner computes no similarity ranks (the result is the same for every
similarity operator), the result set holds exactly the candidate rows
in which the normalized query occurs case-insensitively in at least one
of name, brand, description, or category name, and the result is
ordered exact-name matches first, then name ascending. -/
theorem search_short_mode (parseNum : String → Option ℚ)
    (sim : String → String → ℚ) (store : List Product) (q0 : String)
    (category cmin cmax : Option String)
    (hq : (normalize_arabic q0).length ≤ 2) :
    (∀ sim' : String → String → ℚ,
        searchQueryset parseNum sim' store q0 category cmin cmax =
          searchQueryset parseNum sim store q0 category cmin cmax) ∧
      (∀ p : Product,
          p ∈ searchQueryset parseNum sim store q0 category cmin cmax ↔
            p ∈ candidateRows parseNum store category cmin cmax ∧
              (icontains p.name (normalize_arabic q0) ||
                  icontains p.brand (normalize_arabic q0) ||
                  icontains p.description (normalize_arabic q0) ||
                  icontains p.categoryName (normalize_arabic q0)) = true) ∧
      (searchQueryset parseNum sim store q0 category cmin cmax).Pairwise
        fun a b =>
          (isExactNameMatch (normalize_arabic q0) a = true ∧
              isExactNameMatch (normalize_arabic q0) b = false) ∨
            (isExactNameMatch (normalize_arabic q0) a =
                isExactNameMatch (normalize_arabic q0) b ∧
              a.name ≤ b.name) := by
  refine ⟨fun sim' => ?_, fun p => ?_, ?_⟩
  · rw [searchQueryset, if_pos hq, searchQueryset, if_pos hq]
  · rw [searchQueryset, if_pos hq]
    simp only [List.mem_insertionSort, List.mem_filter]
  · rw [searchQueryset, if_pos hq]
    exact (List.sorted_insertionSort _ _).imp fun h => shortKeyLe_imp h

/-- Claim C3: the long-mode result sequence is sorted by the claimed
priority — every exact-name-match row precedes every non-match
regardless of rank, rows of equal match status are ordered by rank
descending, and rows of equal rank by name ascending. -/
theorem search_long_mode_order (parseNum : String → Option ℚ)
    (sim : String → String → ℚ) (store : List Product) (q0 : String)
    (category cmin cmax : Option String)
    (hq : 2 < (normalize_arabic q0).length) :
    (searchQueryset parseNum sim store q0 category cmin cmax).Pairwise
      fun a b =>
        (isExactNameMatch (normalize_arabic q0) a = true ∧
            isExactNameMatch (normalize_arabic q0) b = false) ∨
          (isExactNameMatch (normalize_arabic q0) a =
              isExactNameMatch (normalize_arabic q0) b ∧
            (rankOf sim (normalize_arabic q0) b <
                rankOf sim (normalize_arabic q0) a ∨
              (rankOf sim (normalize_arabic q0) a =
                  rankOf sim (normalize_arabic q0) b ∧
                a.name ≤ b.name))) := by
  rw [searchQueryset, if_neg (not_le.mpr hq)]
  exact (List.sorted_insertionSort _ _).imp fun h => longKeyLe_imp h

/-- An unparseable lower calorie bound is dropped: the filter stage is
the identity. -/
theorem calMinFilter_invalid (parseNum : String → Option ℚ) (s : String)
    (l : List Product) (h : parseNum s = none) :
    calMinFilter parseNum (some s) l = l := by
  by_cases hs : s = "" <;> simp [calMinFilter, hs, h]

/-- An unparseable upper calorie bound is dropped: the filter stage is
the identity. -/
theorem calMaxFilter_invalid (parseNum : String → Option ℚ) (s : String)
    (l : List Product) (h : parseNum s = none) :
    calMaxFilter parseNum (some s) l = l := by
  by_cases hs : s = "" <;> simp [calMaxFilter, hs, h]

/-- Claim C10: a calorie bound that fails numeric parsing never fails
the search — passing it is the same as omitting it, with all other
filters still applied. -/
theorem search_invalid_calorie_bound (parseNum : String → Option ℚ)
    (sim : String → String → ℚ) (store : List Product) (q0 : String)
    (category : Option String) (s : String) (h : parseNum s = none) :
    (∀ cmax : Option String,
        searchQueryset parseNum sim store q0 category (some s) cmax =
          searchQueryset parseNum sim store q0 category none cmax) ∧
      ∀ cmin : Option String,
        searchQueryset parseNum sim store q0 category cmin (some s) =
          searchQueryset parseNum sim store q0 category cmin none := by
  constructor
  · intro cmax
    have hc : candidateRows parseNum store category (some s) cmax =
        candidateRows parseNum store category none cmax := by
      rw [candidateRows, candidateRows, calMinFilter_invalid _ _ _ h, calMinFilter]
    rw [searchQueryset, searchQueryset, hc]
  · intro cmin
    have hc : candidateRows parseNum store category cmin (some s) =
        candidateRows parseNum store category cmin none := by
      rw [candidateRows, candidateRows, calMaxFilter_invalid _ _ _ h, calMaxFilter]
    rw [searchQueryset, searchQueryset, hc]

/-- Claim C7: a `q` parameter that is empty (or missing, or whitespace
only) after stripping short-circuits to the canonical empty body
`{count: 0, next: null, previous: null, results: []}`, and the response
is independent of the catalog store — the planner and store are never
consulted. -/
theorem search_empty_query (parseNum : String → Option ℚ)
    (sim : String → String → ℚ) (store : List Product)
    (qP category cmin cmax : Option String)
    (h : pyStrip (qP.getD "") = "") :
    searchEndpoint parseNum sim store qP category cmin cmax =
        ⟨0, none, none, []⟩ ∧
      ∀ store' : List Product,
        searchEndpoint parseNum sim store' qP category cmin cmax =
          searchEndpoint parseNum sim store qP category cmin cmax := by
  refine ⟨by rw [searchEndpoint, if_pos h], fun store' => ?_⟩
  rw [searchEndpoint, if_pos h, searchEndpoint, if_pos h]

/-! ## Theorems: cache layer -/

/-- A lookup misses when no stored entry carries the key. -/
theorem cacheGet_eq_none_of {V : Type} {c : CacheState V} {k : String}
    (h : ∀ e ∈ c.kv, e.1 ≠ k) : cacheGet c k = none := by
  rw [cacheGet, List.find?_eq_none.mpr]
  · rfl
  · intro e he
    simpa using h e he

/-- Entries surviving `invalidate_all_search_cache` were already
present. -/
theorem mem_invalidateAllSearchCache {V : Type} {c : CacheState V}
    {e : String × V} (h : e ∈ (invalidateAllSearchCache c).kv) : e ∈ c.kv := by
  rw [invalidateAllSearchCache] at h
  split at h
  · exact h
  · exact (List.mem_filter.mp h).1

/-- Entries surviving `invalidate_product_cache` were already present,
are not under the list-page prefix, are not the product's detail entry,
and are not registered search keys. -/
theorem mem_invalidateProductCache {V : Type} {c : CacheState V} {pid : Nat}
    {e : String × V} (h : e ∈ (invalidateProductCache c pid).kv) :
    e ∈ c.kv ∧ strHasPrefix "products:all:" e.1 = false ∧
      e.1 ≠ detailCacheKey (toString pid) ∧ e.1 ∉ c.searchKeys := by
  rw [invalidateProductCache] at h
  have h1 := mem_invalidateAllSearchCache h
  have h2 := List.mem_filter.mp h1
  have h3 := List.mem_filter.mp h2.1
  refine ⟨h3.1, by simpa using h3.2, by simpa using h2.2, ?_⟩
  rw [invalidateAllSearchCache] at h
  split at h
  · next hemp =>
    have hnil : c.searchKeys = [] := List.isEmpty_iff.mp hemp
    rw [hnil]
    exact List.not_mem_nil _
  · simpa using (List.mem_filter.mp h).2

/-- The list-page cache key of any page carries the swept prefix. -/
theorem listCacheKey_hasPrefix (page : String) :
    strHasPrefix "products:all:" (listCacheKey page) = true := by
  rw [strHasPrefix, decide_eq_true_eq, listCacheKey]
  show List.IsPrefix _ (("products:all:page:").data ++ page.data)
  exact List.IsPrefix.trans (by decide) (List.prefix_append _ _)

/-- `invalidate_product_cache` clears every list page, the product's
detail entry, and every registered search key, and empties the
registry. -/
theorem invalidateProductCache_spec {V : Type} (c : CacheState V) (pid : Nat) :
    (∀ page, cacheGet (invalidateProductCache c pid) (listCacheKey page) = none) ∧
      cacheGet (invalidateProductCache c pid) (detailCacheKey (toString pid)) =
        none ∧
      (∀ k ∈ c.searchKeys, cacheGet (invalidateProductCache c pid) k = none) ∧
      (invalidateProductCache c pid).searchKeys = [] := by
  refine ⟨fun page => ?_, ?_, fun k hk => ?_, ?_⟩
  · refine cacheGet_eq_none_of fun e he hk => ?_
    have := (mem_invalidateProductCache he).2.1
    rw [hk, listCacheKey_hasPrefix page] at this
    cases this
  · exact cacheGet_eq_none_of fun e he => (mem_invalidateProductCache he).2.2.1
  · refine cacheGet_eq_none_of fun e he hek => ?_
    exact (mem_invalidateProductCache he).2.2.2 (hek ▸ hk)
  · rw [invalidateProductCache, invalidateAllSearchCache]
    split
    · next hemp =>
      exact List.isEmpty_iff.mp hemp
    · rfl

/-- A list read against a cold key computes from the store. -/
theorem listRead_miss {V : Type} (computeL : List Product → String → V)
    (store : List Product) (page : String) (c : CacheState V)
    (h : cacheGet c (listCacheKey page) = none) :
    listRead computeL store page c =
      (computeL store page, cacheSet c (listCacheKey page) (computeL store page)) := by
  unfold listRead
  rw [h]

/-- A detail read against a cold key computes from the store. -/
theorem detailRead_miss {V : Type} (computeD : List Product → String → V)
    (store : List Product) (pid : String) (c : CacheState V)
    (h : cacheGet c (detailCacheKey pid) = none) :
    detailRead computeD store pid c =
      (computeD store pid, cacheSet c (detailCacheKey pid) (computeD store pid)) := by
  unfold detailRead
  rw [h]

/-- Claim C4: each of `perform_create`, `perform_update`, and
`perform_destroy` invalidates synchronously — the write's resulting
state already has every list page swept, the written product's detail
entry cleared, every registered search key cleared, and the registry
emptied — and consequently list reads (any page) and the detail read of
the written product immediately after the write compute their value
from the post-write store, never serving a value cached before the
write. -/
theorem write_invalidates_and_freshens {V : Type}
    (computeL computeD : List Product → String → V) (s : SysState V)
    (p : Product) (pid : Nat) :
    ((∀ page, cacheGet (performCreate s p).cache (listCacheKey page) = none) ∧
        cacheGet (performCreate s p).cache (detailCacheKey (toString p.id)) =
          none ∧
        (∀ k ∈ s.cache.searchKeys,
          cacheGet (performCreate s p).cache k = none) ∧
        (performCreate s p).cache.searchKeys = [] ∧
        (∀ page,
          (listRead computeL (performCreate s p).store page
              (performCreate s p).cache).1 =
            computeL (performCreate s p).store page) ∧
        (detailRead computeD (performCreate s p).store (toString p.id)
            (performCreate s p).cache).1 =
          computeD (performCreate s p).store (toString p.id)) ∧
      ((∀ page, cacheGet (performUpdate s p).cache (listCacheKey page) = none) ∧
        cacheGet (performUpdate s p).cache (detailCacheKey (toString p.id)) =
          none ∧
        (∀ k ∈ s.cache.searchKeys,
          cacheGet (performUpdate s p).cache k = none) ∧
        (performUpdate s p).cache.searchKeys = [] ∧
        (∀ page,
          (listRead computeL (performUpdate s p).store page
              (performUpdate s p).cache).1 =
            computeL (performUpdate s p).store page) ∧
        (detailRead computeD (performUpdate s p).store (toString p.id)
            (performUpdate s p).cache).1 =
          computeD (performUpdate s p).store (toString p.id)) ∧
      ((∀ page, cacheGet (performDestroy s pid).cache (listCacheKey page) = none) ∧
        cacheGet (performDestroy s pid).cache (detailCacheKey (toString pid)) =
          none ∧
        (∀ k ∈ s.cache.searchKeys,
          cacheGet (performDestroy s pid).cache k = none) ∧
        (performDestroy s pid).cache.searchKeys = [] ∧
        (∀ page,
          (listRead computeL (performDestroy s pid).store page
              (performDestroy s pid).cache).1 =
            computeL (performDestroy s pid).store page) ∧
        (detailRead computeD (performDestroy s pid).store (toString pid)
            (performDestroy s pid).cache).1 =
          computeD (performDestroy s pid).store (toString pid)) := by
  have hc := invalidateProductCache_spec s.cache p.id
  have hd := invalidateProductCache_spec s.cache pid
  refine
    ⟨⟨hc.1, hc.2.1, hc.2.2.1, hc.2.2.2, fun page => ?_, ?_⟩,
      ⟨hc.1, hc.2.1, hc.2.2.1, hc.2.2.2, fun page => ?_, ?_⟩,
      ⟨hd.1, hd.2.1, hd.2.2.1, hd.2.2.2, fun page => ?_, ?_⟩⟩
  · rw [show (performCreate s p).cache = invalidateProductCache s.cache p.id
        from rfl, listRead_miss _ _ _ _ (hc.1 page)]
  · rw [show (performCreate s p).cache = invalidateProductCache s.cache p.id
        from rfl, detailRead_miss _ _ _ _ hc.2.1]
  · rw [show (performUpdate s p).cache = invalidateProductCache s.cache p.id
        from rfl, listRead_miss _ _ _ _ (hc.1 page)]
  · rw [show (performUpdate s p).cache = invalidateProductCache s.cache p.id
        from rfl, detailRead_miss _ _ _ _ hc.2.1]
  · rw [show (performDestroy s pid).cache = invalidateProductCache s.cache pid
        from rfl, listRead_miss _ _ _ _ (hd.1 page)]
  · rw [show (performDestroy s pid).cache = invalidateProductCache s.cache pid
        from rfl, detailRead_miss _ _ _ _ hd.2.1]

/-- Claim C8 refuted at concrete keys: the code's key formats are
`products:<id>` and `products:all:page:<page>`, not the claimed
`product:<id>` and `product-list:<page>`. -/
theorem cache_key_format_counterexample :
    detailCacheKey "5" = "products:5" ∧ detailCacheKey "5" ≠ "product:5" ∧
      listCacheKey "1" = "products:all:page:1" ∧
      listCacheKey "1" ≠ "product-list:1" ∧
      searchKeysRegistryKey = "search_keys" :=
  ⟨rfl, by decide, rfl, by decide, rfl⟩

/-- Claim C8 as amended: the cache layer keys detail reads as
`products:<id>` and list reads as `products:all:page:<page>`, the
search-key registry is the Redis set `search_keys`, and these exact
keys are the ones reads store under and the invalidation sweep
clears. -/
theorem cache_key_formats {V : Type} (computeL computeD : List Product → String → V)
    (store : List Product) (c : CacheState V) (pid page : String) (pidN : Nat)
    (hl : cacheGet c (listCacheKey page) = none)
    (hd : cacheGet c (detailCacheKey pid) = none) :
    detailCacheKey pid = "products:" ++ pid ∧
      listCacheKey page = "products:all:page:" ++ page ∧
      searchKeysRegistryKey = "search_keys" ∧
      (listRead computeL store page c).2 =
        cacheSet c (listCacheKey page) (computeL store page) ∧
      (detailRead computeD store pid c).2 =
        cacheSet c (detailCacheKey pid) (computeD store pid) ∧
      cacheGet (invalidateProductCache c pidN) (listCacheKey page) = none ∧
      cacheGet (invalidateProductCache c pidN) (detailCacheKey (toString pidN)) =
        none ∧
      ∀ k ∈ c.searchKeys, cacheGet (invalidateProductCache c pidN) k = none := by
  have hs := invalidateProductCache_spec c pidN
  refine ⟨rfl, rfl, rfl, ?_, ?_, hs.1 page, hs.2.1, hs.2.2.1⟩
  · rw [listRead_miss _ _ _ _ hl]
  · rw [detailRead_miss _ _ _ _ hd]

/-- Claim C9 refuted: with the cache backend unreachable, the view code
catches nothing, so the connection error surfaces from a list read,
from `invalidate_product_cache`, and from a product create. -/
theorem cache_error_surfaces_counterexample :
    listReadE (fun (_ : List Product) (_ : String) => (0 : Nat)) [] "1"
        ⟨false, ⟨[], []⟩⟩ = .error connError ∧
      invalidateProductCacheE (⟨false, ⟨[], []⟩⟩ : RedisState Nat) 1 =
        .error connError ∧
      performCreateE [] (⟨false, ⟨[], []⟩⟩ : RedisState Nat)
          ⟨1, "Apple", "Acme", "", "Fruits", 52⟩ =
        .error connError :=
  ⟨rfl, rfl, rfl⟩

/-- Claim C9 as amended: when the cache backend is reachable, a read
that misses falls through to the catalog store (and caches the
computed value); but the view layer installs no exception handling
around any cache operation, so an unreachable backend's error
propagates to the caller — the read fails, and write-path invalidation
fails rather than degrading to a logged warning. -/
theorem cache_failure_propagates {V : Type}
    (computeL : List Product → String → V) (store : List Product)
    (page : String) (pid : Nat) (r : RedisState V)
    (hmiss : cacheGet r.cache (listCacheKey page) = none) :
    (r.avail = true →
        listReadE computeL store page r =
          .ok (computeL store page,
            withCache r
              (cacheSet r.cache (listCacheKey page) (computeL store page)))) ∧
      (r.avail = false →
        listReadE computeL store page r = .error connError ∧
          invalidateProductCacheE r pid = .error connError) := by
  constructor
  · intro ha
    rw [listReadE, cacheGetE, if_pos ha, hmiss]
    show (cacheSetE r _ _).bind _ = _
    rw [cacheSetE, if_pos ha]
    rfl
  · intro ha
    have hget : cacheGetE r (listCacheKey page) = .error connError := by
      rw [cacheGetE, ha]
      rfl
    have hdel : cacheDeletePatternE r "products:all:" = .error connError := by
      rw [cacheDeletePatternE, ha]
      rfl
    constructor
    · rw [listReadE, hget]
      rfl
    · rw [invalidateProductCacheE, hdel]
      rfl

/-! ## Concrete witnesses -/

/-- A concrete catalog row used to instantiate the theorems. -/
def sampleProduct : Product :=
  ⟨1, "Apple Pie", "Acme", "a sweet pie", "Desserts", 300⟩

/-- A concrete stand-in for the store's similarity operator. -/
def simConst : String → String → ℚ := fun _ _ => 1 / 4

/-- A concrete stand-in for a numeric parser that accepts nothing. -/
def parseNone : String → Option ℚ := fun _ => none

/-- Witness for the long-mode rank-filter theorem at the query
`"apple"` and a one-row store. -/
theorem search_long_mode_rank_filter_witness :
    2 < (normalize_arabic "apple").length ∧
      (sampleProduct ∈
          searchQueryset parseNone simConst [sampleProduct] "apple" none none
            none ↔
        sampleProduct ∈ candidateRows parseNone [sampleProduct] none none none ∧
          (1 / 5 : ℚ) < rankOf simConst (normalize_arabic "apple") sampleProduct) :=
  ⟨by decide,
    (search_long_mode_rank_filter parseNone simConst [sampleProduct] "apple"
        none none none (by decide)).2 sampleProduct⟩

/-- Witness for the short-mode theorem at the query `"ap"` and a
one-row store. -/
theorem search_short_mode_witness :
    (normalize_arabic "ap").length ≤ 2 ∧
      (sampleProduct ∈
          searchQueryset parseNone simConst [sampleProduct] "ap" none none
            none ↔
        sampleProduct ∈ candidateRows parseNone [sampleProduct] none none none ∧
          (icontains sampleProduct.name (normalize_arabic "ap") ||
              icontains sampleProduct.brand (normalize_arabic "ap") ||
              icontains sampleProduct.description (normalize_arabic "ap") ||
              icontains sampleProduct.categoryName (normalize_arabic "ap")) =
            true) :=
  ⟨by decide,
    (search_short_mode parseNone simConst [sampleProduct] "ap" none none none
        (by decide)).2.1 sampleProduct⟩

/-- Witness for the long-mode ordering theorem at the query `"apple"`
and a one-row store. -/
theorem search_long_mode_order_witness :
    2 < (normalize_arabic "apple").length ∧
      (searchQueryset parseNone simConst [sampleProduct] "apple" none none
          none).Pairwise
        (fun a b =>
          (isExactNameMatch (normalize_arabic "apple") a = true ∧
              isExactNameMatch (normalize_arabic "apple") b = false) ∨
            (isExactNameMatch (normalize_arabic "apple") a =
                isExactNameMatch (normalize_arabic "apple") b ∧
              (rankOf simConst (normalize_arabic "apple") b <
                  rankOf simConst (normalize_arabic "apple") a ∨
                (rankOf simConst (normalize_arabic "apple") a =
                    rankOf simConst (normalize_arabic "apple") b ∧
                  a.name ≤ b.name)))) :=
  ⟨by decide,
    search_long_mode_order parseNone simConst [sampleProduct] "apple" none none
      none (by decide)⟩

/-- Witness for the invalid-calorie-bound theorem at the bound
`"invalid"`. -/
theorem search_invalid_calorie_bound_witness :
    parseNone "invalid" = none ∧
      searchQueryset parseNone simConst [sampleProduct] "apple" none
          (some "invalid") none =
        searchQueryset parseNone simConst [sampleProduct] "apple" none none
          none :=
  ⟨rfl,
    (search_invalid_calorie_bound parseNone simConst [sampleProduct] "apple"
        none "invalid" rfl).1 none⟩

/-- Witness for the empty-query theorem at a whitespace-only `q`. -/
theorem search_empty_query_witness :
    pyStrip ((some "   ").getD "") = "" ∧
      searchEndpoint parseNone simConst [sampleProduct] (some "   ") none none
          none = ⟨0, none, none, []⟩ :=
  ⟨by decide,
    (search_empty_query parseNone simConst [sampleProduct] (some "   ") none
        none none (by decide)).1⟩

/-- Witness for the amended cache-key-format theorem at an empty cache
and concrete identifiers. -/
theorem cache_key_formats_witness :
    cacheGet (⟨[], []⟩ : CacheState Nat) (listCacheKey "1") = none ∧
      detailCacheKey "7" = "products:" ++ "7" :=
  ⟨rfl,
    (cache_key_formats (fun _ _ => 0) (fun _ _ => 0) [] (⟨[], []⟩ : CacheState Nat)
        "7" "1" 7 rfl rfl).1⟩

/-- Witness for the amended cache-failure theorem at an available empty
backend. -/
theorem cache_failure_propagates_witness :
    cacheGet (CacheState.mk ([] : List (String × Nat)) []) (listCacheKey "1") =
        none ∧
      listReadE (fun _ _ => (0 : Nat)) [] "1" ⟨true, ⟨[], []⟩⟩ =
        .ok (0, withCache ⟨true, ⟨[], []⟩⟩ (cacheSet ⟨[], []⟩ (listCacheKey "1") 0)) :=
  ⟨rfl,
    (cache_failure_propagates (fun _ _ => (0 : Nat)) [] "1" 1 ⟨true, ⟨[], []⟩⟩
        rfl).1 rfl⟩

end Miran
